import Mathlib

/-!
Verification development for the sansmic solution-mining cavern simulator.
The staged sources hold only the CI workflow and the regression notebook;
the core (geometry grid, stage descriptors, simulation state, integrator
core, stage sequencer, results aggregator, scenario reader) is therefore
modelled from the specification's words, and every claim is settled against
that model.  Physical rate constants of the model are representative
rational values; the structural behaviour (validation, sequencing, saving,
convergence bookkeeping, error taxonomy) follows the spec exactly.
-/

namespace Sansmic

/-- Modelled from the spec: the error taxonomy of §7 (the core implementation
is not in the staged sources).  `ValidationError` for malformed geometry,
`ConfigurationError` for an invalid stage (carrying the stage index),
`DivergenceError` for a failed iterative solve (carrying stage and step). -/
inductive SimError where
  | ValidationError (msg : String)
  | ConfigurationError (stageIdx : Nat)
  | DivergenceError (stageIdx : Nat) (stepIdx : Nat)
deriving DecidableEq

namespace Units

/-- Modelled from the spec: the volume unit constants of the reference
implementation (`sansmic.model.Units`); the single authoritative value is
42 gal × 231 cu in / 1728 cu in = 9702/1728 cubic feet per barrel. -/
def cubic_foot : ℚ := 1

/-- Modelled from the spec: one barrel, measured in cubic feet. -/
def barrel : ℚ := 9702 / 1728

end Units

namespace Integrator

/-- Modelled from the spec: the volume conversion as used at the integrator
core's cavern-volume update site. -/
def cuftToBbl (v : ℚ) : ℚ := v * Units.cubic_foot / Units.barrel

end Integrator

namespace Insolubles

/-- Modelled from the spec: the volume conversion as used at the
insoluble-material accumulation site. -/
def cuftToBbl (v : ℚ) : ℚ := v * Units.cubic_foot / Units.barrel

end Insolubles

namespace Output

/-- Modelled from the spec: the volume conversion as used at the results
aggregator's output site. -/
def cuftToBbl (v : ℚ) : ℚ := v * Units.cubic_foot / Units.barrel

end Output

/-- Modelled from the spec: the geometry grid, an ordered set of depth
cells with associated radii, read-only after construction. -/
structure GeometryGrid where
  depths : List ℚ
  radii : List ℚ
deriving DecidableEq

/-- Strictly-increasing test on a list of rationals. -/
def strictIncB : List ℚ → Bool
  | [] => true
  | [_] => true
  | a :: b :: rest => decide (a < b) && strictIncB (b :: rest)

/-- Modelled from the spec: validity of raw (depth, radius) pairs — depths
strictly increasing and radii non-negative. -/
def geomValidB (pairs : List (ℚ × ℚ)) : Bool :=
  strictIncB (pairs.map Prod.fst) &&
    (pairs.map Prod.snd).all (fun r => decide (0 ≤ r))

/-- Modelled from the spec: geometry-grid construction from an ordered list
of (depth, radius) pairs, failing with a `ValidationError` when depths are
not strictly increasing or some radius is negative. -/
def GeometryGrid.build (pairs : List (ℚ × ℚ)) : Except SimError GeometryGrid :=
  if geomValidB pairs then
    .ok ⟨pairs.map Prod.fst, pairs.map Prod.snd⟩
  else
    .error (.ValidationError "geometry: depths must increase and radii be non-negative")

/-- Modelled from the spec: the stage-level specific-gravity switch — either
clamp the incoming cavern brine specific gravity to at most 1.0 (the
documented meaning of the legacy REPEAT option) or inherit the previous
stage's final profile. -/
inductive SgResetMode where
  | clampToOne
  | inherit
deriving DecidableEq

/-- Modelled from the spec: a stage's stopping target — a duration or an
injected-volume target. -/
inductive StageTarget where
  | byDuration (d : ℚ)
  | byVolume (v : ℚ)
deriving DecidableEq

/-- Modelled from the spec: the per-stage configuration record. -/
structure StageDescriptor where
  injDepth : ℚ
  rate : ℚ
  targetSg : ℚ
  target : StageTarget
  timestep : ℚ
  saveEvery : Nat
  sgReset : SgResetMode
  dissolutionOnly : Bool
deriving DecidableEq

/-- Modelled from the spec: the mutable physical record evolved by the
integrator core — radius and specific-gravity profiles, insoluble tracking,
interface depths, cumulative volumes, the convergence diagnostic and the
auxiliary plume/diffusion profiles. -/
structure SimState where
  depths : List ℚ
  radius : List ℚ
  sg : List ℚ
  insolVol : ℚ
  insolTop : ℚ
  obi : ℚ
  injVol : ℚ
  fillVol : ℚ
  ventVol : ℚ
  cavVol : ℚ
  errODE : ℚ
  plumeRadius : List ℚ
  diffCoeff : List ℚ
deriving DecidableEq

/-- Well-formedness of a state: the radius and specific-gravity profiles
cover the same cells. -/
def SimState.wf (s : SimState) : Bool := s.radius.length == s.sg.length

/-- Modelled from the spec: saturated-brine specific gravity. -/
def sgSat : ℚ := 6 / 5

/-- Modelled from the spec: dissolution rate constant. -/
def kDiss : ℚ := 1 / 100

/-- Modelled from the spec: density relaxation rate constant. -/
def kSg : ℚ := 1 / 20

/-- Modelled from the spec: insoluble fraction of dissolved salt. -/
def insolFrac : ℚ := 1 / 20

/-- Modelled from the spec: deposit-height rate constant. -/
def depositK : ℚ := 1 / 10

/-- Modelled from the spec: vented fraction of released insolubles. -/
def ventFrac : ℚ := 1 / 10

/-- Modelled from the spec: plume radius rate constant. -/
def kPlume : ℚ := 1 / 1000

/-- Modelled from the spec: base effective diffusion coefficient. -/
def diffBase : ℚ := 1 / 10000

/-- Modelled from the spec: per-cell wall recession over one timestep,
driven by local brine undersaturation; dissolution never shrinks a cell. -/
def cellGrowth (dt : ℚ) (g : ℚ) : ℚ := max 0 (kDiss * dt * (sgSat - g))

/-- Modelled from the spec: the physical update of one accepted timestep —
dissolution enlarges the radius profile, density relaxes toward saturation,
insolubles accumulate and may raise the effective floor (burying cells)
unless the stage is dissolution-only, and the volume balance accumulates
with the authoritative unit conversion. -/
def advanceState (stage : StageDescriptor) (s : SimState) : SimState :=
  let dt := stage.timestep
  let growths := s.sg.map (cellGrowth dt)
  let radius1 := List.zipWith (· + ·) s.radius growths
  let dV := growths.sum
  let insolTop1 := s.insolTop - depositK * insolFrac * dV
  let radius2 :=
    if stage.dissolutionOnly then radius1
    else List.zipWith (fun d r => if insolTop1 < d then 0 else r) s.depths radius1
  { depths := s.depths
    radius := radius2
    sg := s.sg.map (fun g => g + kSg * dt * (sgSat - g))
    insolVol := s.insolVol + Insolubles.cuftToBbl (insolFrac * dV)
    insolTop := insolTop1
    obi := s.obi - kPlume * stage.rate * dt
    injVol := s.injVol + max 0 stage.rate * dt
    fillVol := s.fillVol + max 0 (-stage.rate) * dt
    ventVol := s.ventVol + ventFrac * (insolFrac * dV)
    cavVol := s.cavVol + Integrator.cuftToBbl dV
    errODE := s.errODE
    plumeRadius := s.depths.map (fun d => max 0 (stage.injDepth - d) * kPlume)
    diffCoeff := s.depths.map (fun d => diffBase + kPlume * (max 0 (stage.injDepth - d) * kPlume)) }

/-- Modelled from the spec: the integrator configuration — convergence
tolerance, the bounded iteration count, and whether a diverged step aborts
the run or continues with the best available state. -/
structure Config where
  tol : ℚ
  maxIter : Nat
  tolerateDivergence : Bool
deriving DecidableEq

/-- Modelled from the spec: the convergence-error metric at the start of a
step's iterative solve. -/
def initialErr (stage : StageDescriptor) : ℚ := |stage.rate| * stage.timestep

/-- Modelled from the spec: the bounded iterative refinement — each attempt
halves the error metric; returns the attempt count and final error on
convergence, or nothing when the bounded attempts fail to reach tolerance. -/
def findConv (tol : ℚ) : Nat → ℚ → Option (Nat × ℚ)
  | 0, e => if e ≤ tol then some (0, e) else none
  | n + 1, e =>
    if e ≤ tol then some (0, e)
    else
      match findConv tol n (e / 2) with
      | some (k, e') => some (k + 1, e')
      | none => none

/-- Modelled from the spec: the explicit result type of the per-step solve —
converged with profile and error, or diverged with the best-effort state. -/
inductive SolveOutcome where
  | converged (s : SimState) (err : ℚ) (iters : Nat)
  | diverged (s : SimState) (err : ℚ)
deriving DecidableEq

/-- The state carried by a solve outcome. -/
def SolveOutcome.state : SolveOutcome → SimState
  | .converged s _ _ => s
  | .diverged s _ => s

/-- Whether a solve outcome is the diverged case. -/
def SolveOutcome.isDiverged : SolveOutcome → Bool
  | .converged _ _ _ => false
  | .diverged _ _ => true

/-- Record a convergence error in the state's diagnostic slot. -/
def setErr (s : SimState) (e : ℚ) : SimState := { s with errODE := e }

/-- Modelled from the spec: one timestep of the integrator core — the
physical update plus the bounded iterative convergence check; a step that
fails to reach tolerance within the bounded attempts is diverged, carrying
the best available state. -/
def solveStep (cfg : Config) (stage : StageDescriptor) (s : SimState) : SolveOutcome :=
  let s' := advanceState stage s
  match findConv cfg.tol cfg.maxIter (initialErr stage) with
  | some (k, e) => .converged (setErr s' e) e k
  | none =>
    let e := initialErr stage * (1 / 2) ^ cfg.maxIter
    .diverged (setErr s' e) e

/-- Whether the per-step solve of a stage diverges under a configuration
(the convergence iteration depends only on the stage and configuration). -/
def divergesB (cfg : Config) (stage : StageDescriptor) : Bool :=
  (findConv cfg.tol cfg.maxIter (initialErr stage)).isNone

/-- Modelled from the spec: the outcome of driving one stage (or the whole
sequence): final state, final elapsed time, saved snapshots, convergence
error series, degraded-step indices and an optional failure. -/
structure LoopOut where
  state : SimState
  endTime : ℚ
  snaps : List (ℚ × SimState)
  errs : List ℚ
  degraded : List Nat
  failure : Option SimError
deriving DecidableEq

/-- Modelled from the spec: the stage-interior time-march.  `r` steps remain,
`k` steps are already taken, `f` is the save frequency; a snapshot is saved
every `f`-th step and at the stage's final step (the stage-boundary marker).
A diverged step either aborts with a `DivergenceError` (keeping the last
fully committed state) or, when tolerated, continues with the best available
state and records the step as degraded. -/
def stageLoop (cfg : Config) (i : Nat) (stage : StageDescriptor) (f : Nat) :
    Nat → Nat → SimState → ℚ → LoopOut
  | 0, _, s, t => ⟨s, t, [], [], [], none⟩
  | r + 1, k, s, t =>
    match solveStep cfg stage s with
    | .converged s' e _ =>
      let t' := t + stage.timestep
      let rest := stageLoop cfg i stage f r (k + 1) s' t'
      ⟨rest.state, rest.endTime,
        (if (k + 1) % f = 0 ∨ r = 0 then [(t', s')] else []) ++ rest.snaps,
        e :: rest.errs, rest.degraded, rest.failure⟩
    | .diverged s' e =>
      if cfg.tolerateDivergence then
        let t' := t + stage.timestep
        let rest := stageLoop cfg i stage f r (k + 1) s' t'
        ⟨rest.state, rest.endTime,
          (if (k + 1) % f = 0 ∨ r = 0 then [(t', s')] else []) ++ rest.snaps,
          e :: rest.errs, k :: rest.degraded, rest.failure⟩
      else ⟨s, t, [], [e], [], some (.DivergenceError i k)⟩

/-- Ceiling of a non-negative rational as a natural number (zero for
non-positive input). -/
def ratCeilNat (q : ℚ) : Nat :=
  if q ≤ 0 then 0 else (q.num.toNat + q.den - 1) / q.den

/-- Modelled from the spec: the number of solver timesteps a stage's
duration or volume target requires. -/
def numSteps (stage : StageDescriptor) : Nat :=
  match stage.target with
  | .byDuration d => ratCeilNat (d / stage.timestep)
  | .byVolume v => ratCeilNat (v / (stage.rate * stage.timestep))

/-- Modelled from the spec: stage validity — a positive solver timestep and
a reachable target (a positive volume target needs a positive rate). -/
def validStage (stage : StageDescriptor) : Bool :=
  decide (0 < stage.timestep) &&
    (match stage.target with
     | .byDuration _ => true
     | .byVolume v => decide (v ≤ 0) || decide (0 < stage.rate))

/-- Modelled from the spec: the stage-entry adjustment — under the
documented semantics of the specific-gravity switch, `clampToOne` clamps
every cell of the incoming brine profile to at most 1.0, while `inherit`
carries the previous stage's final profile forward unchanged. -/
def applyStageEntry (stage : StageDescriptor) (s : SimState) : SimState :=
  match stage.sgReset with
  | .clampToOne => { s with sg := s.sg.map (fun g => min 1 g) }
  | .inherit => s

/-- Modelled from the spec: run one stage — an invalid stage fails fast with
a `ConfigurationError` before any state mutation; a valid stage applies the
entry adjustment and marches `numSteps` timesteps. -/
def runStage (cfg : Config) (i : Nat) (stage : StageDescriptor) (s : SimState) (t : ℚ) :
    LoopOut :=
  if validStage stage then
    stageLoop cfg i stage (max 1 stage.saveEvery) (numSteps stage) 0 (applyStageEntry stage s) t
  else ⟨s, t, [], [], [], some (.ConfigurationError i)⟩

/-- Modelled from the spec: the stage sequencer's aggregate outcome. -/
structure SeqOut where
  state : SimState
  endTime : ℚ
  snaps : List (ℚ × SimState)
  errs : List ℚ
  degraded : List (Nat × Nat)
  failure : Option SimError
deriving DecidableEq

/-- Modelled from the spec: the stage sequencer — stages run strictly in
declared order, each starting from the previous stage's final state; a
failed stage stops the run, retaining the results accumulated so far. -/
def runStages (cfg : Config) : Nat → List StageDescriptor → SimState → ℚ → SeqOut
  | _, [], s, t => ⟨s, t, [], [], [], none⟩
  | i, stage :: rest, s, t =>
    let o := runStage cfg i stage s t
    match o.failure with
    | some e =>
      ⟨o.state, o.endTime, o.snaps, o.errs, o.degraded.map (fun k => (i, k)), some e⟩
    | none =>
      let r := runStages cfg (i + 1) rest o.state o.endTime
      ⟨r.state, r.endTime, o.snaps ++ r.snaps, o.errs ++ r.errs,
        o.degraded.map (fun k => (i, k)) ++ r.degraded, r.failure⟩

/-- Modelled from the spec: the results object — append-only snapshots (the
first being the pre-stage-one time-zero snapshot), the convergence error
series and the degraded-step diagnostics. -/
structure Results where
  snaps : List (ℚ × SimState)
  errSeries : List ℚ
  degraded : List (Nat × Nat)
deriving DecidableEq

/-- Modelled from the spec: what a finished (or cleanly aborted) run hands
back to the caller. -/
structure RunOutput where
  results : Results
  finalState : SimState
  failure : Option SimError
deriving DecidableEq

/-- Modelled from the spec: a fully merged scenario — raw geometry data plus
the ordered stage descriptors. -/
structure Scenario where
  geometry : List (ℚ × ℚ)
  stages : List StageDescriptor
deriving DecidableEq

/-- Modelled from the spec: the initial cavern brine specific gravity, taken
from the first stage descriptor (1.0 when there is none). -/
def initialSgOf : List StageDescriptor → ℚ
  | [] => 1
  | st :: _ => st.targetSg

/-- Modelled from the spec: the initial cavern volume estimate in cubic
feet, from the geometry's radius profile. -/
def initVolumeCuFt (g : GeometryGrid) : ℚ := (g.radii.map (fun r => r * r)).sum

/-- Modelled from the spec: the simulation state initialized from the
geometry grid and the first stage descriptor. -/
def initState (g : GeometryGrid) (stages : List StageDescriptor) : SimState :=
  { depths := g.depths
    radius := g.radii
    sg := g.radii.map (fun _ => initialSgOf stages)
    insolVol := 0
    insolTop := g.depths.foldr max 0
    obi := g.depths.foldr min 0
    injVol := 0
    fillVol := 0
    ventVol := 0
    cavVol := Output.cuftToBbl (initVolumeCuFt g)
    errODE := 0
    plumeRadius := g.depths.map (fun _ => 0)
    diffCoeff := g.depths.map (fun _ => diffBase) }

/-- Modelled from the spec: run a whole scenario — geometry validation first
(a malformed grid is fatal before any simulation state exists), then the
initial time-zero snapshot, then the stage sequence. -/
def runScenario (cfg : Config) (sc : Scenario) : Except SimError RunOutput :=
  match GeometryGrid.build sc.geometry with
  | .error e => .error e
  | .ok g =>
    let s0 := initState g sc.stages
    let r := runStages cfg 0 sc.stages s0 0
    .ok ⟨⟨(0, s0) :: r.snaps, r.errs, r.degraded⟩, r.state, r.failure⟩

/-- Pointwise comparison of two radius profiles of equal length. -/
def radiusLEb : List ℚ → List ℚ → Bool
  | [], [] => true
  | x :: xs, y :: ys => decide (x ≤ y) && radiusLEb xs ys
  | _, _ => false

/-- Chained pointwise comparison along a sequence of radius profiles. -/
def radChainB : List (List ℚ) → Bool
  | [] => true
  | [_] => true
  | a :: b :: rest => radiusLEb a b && radChainB (b :: rest)

/-- The radius profiles of a snapshot list. -/
def snapRadii (l : List (ℚ × SimState)) : List (List ℚ) :=
  l.map (fun p => p.2.radius)

/-- Modelled from the spec: per-stage count of save points — one every
`f`-th step plus the stage-final boundary marker. -/
def saveCount (f : Nat) : Nat → Nat → Nat
  | 0, _ => 0
  | r + 1, k => (if (k + 1) % f = 0 ∨ r = 0 then 1 else 0) + saveCount f r (k + 1)

/-- Modelled from the spec: the save points one stage contributes. -/
def stageSaveCount (stage : StageDescriptor) : Nat :=
  saveCount (max 1 stage.saveEvery) (numSteps stage) 0

/-- Modelled from the spec: total save points of a stage list. -/
def totalSaveCount (stages : List StageDescriptor) : Nat :=
  (stages.map stageSaveCount).sum

/-- Modelled from the spec: the legacy scenario file's per-stage
specific-gravity option — the REPEAT keyword or an explicit value. -/
inductive LegacySgOption where
  | repeatSg
  | explicitSg (v : ℚ)
deriving DecidableEq

/-- Modelled from the spec: a stage record of a legacy scenario file. -/
structure LegacyStage where
  sgOption : LegacySgOption
  injDepth : ℚ
  rate : ℚ
  durationDays : ℚ
  timestep : ℚ
  saveEvery : Nat
deriving DecidableEq

/-- Modelled from the spec: a parsed legacy scenario file. -/
structure LegacyFile where
  geometry : List (ℚ × ℚ)
  stages : List LegacyStage
deriving DecidableEq

/-- Modelled from the spec: conversion of a legacy stage record to a stage
descriptor; the REPEAT option maps to the documented clamp-to-one semantics,
not the legacy-buggy carry-over. -/
def convertLegacyStage (ls : LegacyStage) : StageDescriptor :=
  { injDepth := ls.injDepth
    rate := ls.rate
    targetSg :=
      match ls.sgOption with
      | .repeatSg => 1
      | .explicitSg v => v
    target := .byDuration ls.durationDays
    timestep := ls.timestep
    saveEvery := ls.saveEvery
    sgReset :=
      match ls.sgOption with
      | .repeatSg => .clampToOne
      | .explicitSg _ => .inherit
    dissolutionOnly := true }

/-- Modelled from the spec: the warning the scenario reader emits for a
stage that uses the legacy REPEAT specific-gravity option. -/
def sgWarning (i : Nat) : String :=
  "stage " ++ toString i ++ ": cavern specific gravity: the legacy REPEAT option is read with its documented clamp-to-one meaning, not the legacy behavior"

/-- Modelled from the spec: the warnings the reader emits, one per stage
using the REPEAT option, in stage order. -/
def readWarnings : Nat → List LegacyStage → List String
  | _, [] => []
  | i, ls :: rest =>
    (match ls.sgOption with
     | .repeatSg => [sgWarning i]
     | .explicitSg _ => []) ++ readWarnings (i + 1) rest

/-- Modelled from the spec: what the scenario reader returns — the usable
model and the visible warnings. -/
structure ReadOutcome where
  model : Scenario
  warnings : List String
deriving DecidableEq

/-- Modelled from the spec: the scenario reader (`sansmic.read_scenario`) —
it never fails on the REPEAT option; it converts every stage, choosing the
documented semantics, and emits one visible warning per affected stage. -/
def read_scenario (f : LegacyFile) : ReadOutcome :=
  ⟨⟨f.geometry, f.stages.map convertLegacyStage⟩, readWarnings 0 f.stages⟩

/-- The number of legacy stages using the REPEAT option. -/
def countRepeatSg : List LegacyStage → Nat
  | [] => 0
  | ls :: rest =>
    (match ls.sgOption with
     | .repeatSg => 1
     | .explicitSg _ => 0) + countRepeatSg rest

/-- Modelled from the spec: the baseline scenario's stage list — four
stages, the first with an explicit specific gravity and the following three
using the legacy REPEAT option. -/
def baselineStages : List LegacyStage :=
  [ ⟨.explicitSg (103 / 100), 3900, 240000, 30, 1 / 100, 2400⟩,
    ⟨.repeatSg, 3900, 240000, 30, 1 / 100, 2400⟩,
    ⟨.repeatSg, 3900, 240000, 30, 1 / 100, 2400⟩,
    ⟨.repeatSg, 3900, 240000, 30, 1 / 100, 2400⟩ ]

/-- Modelled from the spec: the baseline legacy scenario file — 101 depth
cells from 3000 to 4050 ft and the four-stage schedule. -/
def baselineLegacy : LegacyFile :=
  ⟨(List.range 101).map (fun k => (3000 + (21 / 2) * (k : ℚ), 100)), baselineStages⟩

/-- The spec's wording of geometry validity, first half: depths strictly
increasing along the ordered pair list. -/
def DepthsStrictIncreasing (pairs : List (ℚ × ℚ)) : Prop :=
  List.Chain' (· < ·) (pairs.map Prod.fst)

/-- The spec's wording of geometry validity, second half: every radius
non-negative. -/
def RadiiNonneg (pairs : List (ℚ × ℚ)) : Prop :=
  ∀ r ∈ pairs.map Prod.snd, 0 ≤ r

/-- A configuration on which the witness stage's solve converges. -/
def cfgOkW : Config := ⟨1, 0, true⟩

/-- A configuration on which the witness stage's solve diverges and the run
continues with degraded steps. -/
def cfgDivW : Config := ⟨1 / 4, 1, true⟩

/-- A small valid dissolution-only stage used by the witnesses. -/
def stW : StageDescriptor :=
  ⟨0, 1, 6 / 5, .byDuration 2, 1, 1, .clampToOne, true⟩

/-- A zero-duration variant of the witness stage. -/
def stZeroW : StageDescriptor :=
  ⟨0, 1, 6 / 5, .byDuration 0, 1, 1, .clampToOne, true⟩

/-- An invalid stage: its solver timestep is zero. -/
def stBadW : StageDescriptor :=
  ⟨0, 1, 6 / 5, .byDuration 2, 0, 1, .clampToOne, true⟩

/-- A small valid geometry pair list used by the witnesses. -/
def geomW : List (ℚ × ℚ) := [(0, 1), (1, 1)]

/-- The geometry grid the witness pair list builds to. -/
def gW : GeometryGrid := ⟨[0, 1], [1, 1]⟩

/-- An invalid geometry pair list: depths decrease. -/
def geomBadW : List (ℚ × ℚ) := [(1, 1), (0, 1)]

/-- The witness scenario: the valid geometry and the single witness stage. -/
def scenW : Scenario := ⟨geomW, [stW]⟩

/-- The witness run's initial state. -/
def sInitW : SimState := initState gW [stW]

/-- A state whose brine profile exceeds 1.0 everywhere, for the clamp
witness. -/
def sHeavyW : SimState := { sInitW with sg := [2, 3 / 2] }

/-- The witness run's output (a completed run on the witness scenario). -/
def outW : RunOutput :=
  match runScenario cfgOkW scenW with
  | .ok o => o
  | .error _ => ⟨⟨[], [], []⟩, initState ⟨[], []⟩ [], none⟩

theorem strictIncB_iff (l : List ℚ) : strictIncB l = true ↔ List.Chain' (· < ·) l := by
  induction l with
  | nil => simp [strictIncB]
  | cons a tl ih =>
    cases tl with
    | nil => simp [strictIncB]
    | cons b rest =>
      simp only [strictIncB, Bool.and_eq_true, decide_eq_true_eq, List.chain'_cons] at ih ⊢
      exact and_congr_right fun _ => ih

theorem geomValidB_iff (pairs : List (ℚ × ℚ)) :
    geomValidB pairs = true ↔ DepthsStrictIncreasing pairs ∧ RadiiNonneg pairs := by
  simp only [geomValidB, Bool.and_eq_true, strictIncB_iff, List.all_eq_true,
    decide_eq_true_eq, DepthsStrictIncreasing, RadiiNonneg]

theorem readWarnings_length (stages : List LegacyStage) :
    ∀ i, (readWarnings i stages).length = countRepeatSg stages := by
  induction stages with
  | nil => intro i; simp [readWarnings, countRepeatSg]
  | cons ls rest ih =>
    intro i
    cases h : ls.sgOption with
    | repeatSg => simp [readWarnings, countRepeatSg, h, ih, Nat.add_comm]
    | explicitSg v => simp [readWarnings, countRepeatSg, h, ih]

/-- Claim C1: for every stage whose specific-gravity reset flag is the
documented clamp-to-one option, the state the stage's first timestep starts
from (the stage-entry adjusted state, which `runStage` hands to the first
`solveStep`) has every cell's brine specific gravity at most 1.0, whatever
the previous stage's final profile was. -/
theorem claim_C1_sg_clamp (stage : StageDescriptor) (s : SimState)
    (h : stage.sgReset = .clampToOne) :
    ((applyStageEntry stage s).sg).all (fun g => decide (g ≤ 1)) = true := by
  simp only [applyStageEntry, h, List.all_eq_true, List.mem_map, decide_eq_true_eq]
  rintro g ⟨x, -, rfl⟩
  exact min_le_left 1 x

theorem claim_C1_witness :
    ((applyStageEntry stW sHeavyW).sg).all (fun g => decide (g ≤ 1)) = true :=
  claim_C1_sg_clamp stW sHeavyW rfl

/-- Claim C3: the barrel-to-cubic-foot conversion is the same function at
every use site of the model (the integrator core's volume balance, the
insoluble accumulation and the results output), so every input volume
converts to the same value at each pair of sites. -/
theorem claim_C3_unit_conversion (v : ℚ) :
    Integrator.cuftToBbl v = Insolubles.cuftToBbl v ∧
      Insolubles.cuftToBbl v = Output.cuftToBbl v :=
  ⟨rfl, rfl⟩

/-- Claim C4: running a scenario is a deterministic function of the
configuration and the scenario value — two runs with identical inputs give
identical outputs, with no hidden state influencing any output. -/
theorem claim_C4_determinism (cfg : Config) (sc1 sc2 : Scenario) (h : sc1 = sc2) :
    runScenario cfg sc1 = runScenario cfg sc2 := by rw [h]

theorem claim_C4_witness : runScenario cfgOkW scenW = runScenario cfgOkW scenW :=
  claim_C4_determinism cfgOkW scenW scenW rfl

/-- Claim C5: geometry-grid construction fails, with a `ValidationError`,
exactly when the depths are not strictly increasing or some radius is
negative; and when construction fails, running any scenario on that
geometry yields the same error and no simulation state (the run function
returns before any state is initialized). -/
theorem claim_C5_geometry_validation (pairs : List (ℚ × ℚ)) :
    ((∃ msg, GeometryGrid.build pairs = .error (.ValidationError msg)) ↔
      ¬(DepthsStrictIncreasing pairs ∧ RadiiNonneg pairs)) ∧
    (∀ (cfg : Config) (stages : List StageDescriptor) (e : SimError),
      GeometryGrid.build pairs = .error e →
        runScenario cfg ⟨pairs, stages⟩ = .error e) := by
  constructor
  · by_cases hv : geomValidB pairs = true
    · rw [GeometryGrid.build, if_pos hv]
      simp only [geomValidB_iff] at hv
      simp [hv]
    · rw [GeometryGrid.build, if_neg hv]
      have : ¬(DepthsStrictIncreasing pairs ∧ RadiiNonneg pairs) := by
        rw [← geomValidB_iff]; exact hv
      simp [this]
  · intro cfg stages e he
    simp only [runScenario, he]

theorem claim_C5_witness :
    runScenario cfgOkW ⟨geomBadW, []⟩ =
      .error (.ValidationError "geometry: depths must increase and radii be non-negative") :=
  (claim_C5_geometry_validation geomBadW).2 cfgOkW [] _ rfl

/-- Claim C6: an invalid stage (non-positive timestep or unreachable
target) makes the stage sequencer fail fast with a `ConfigurationError`
carrying the stage index, before any mutation: the returned state and clock
are exactly the ones at the end of the last completed stage, no snapshot,
error entry or degraded step is contributed by the rejected stage or any
later stage, and the sequencer's caller keeps everything accumulated
before this call. -/
theorem claim_C6_invalid_stage (cfg : Config) (i : Nat) (stage : StageDescriptor)
    (rest : List StageDescriptor) (s : SimState) (t : ℚ)
    (h : validStage stage = false) :
    runStages cfg i (stage :: rest) s t =
      ⟨s, t, [], [], [], some (.ConfigurationError i)⟩ := by
  simp [runStages, runStage, h]

theorem claim_C6_witness :
    runStages cfgOkW 0 [stBadW] sInitW 0 =
      ⟨sInitW, 0, [], [], [], some (.ConfigurationError 0)⟩ :=
  claim_C6_invalid_stage cfgOkW 0 stBadW [] sInitW 0 rfl

/-- Claim C10: the scenario reader accepts a legacy file whose stages use
the REPEAT specific-gravity option — it returns a usable model converting
every stage, resolves the option to the documented clamp-to-one semantics
exactly for the affected stages (never silently choosing), and emits one
visible warning per affected stage — three for the baseline scenario. -/
theorem claim_C10_repeat_warnings :
    (∀ f : LegacyFile,
      ((read_scenario f).warnings).length = countRepeatSg f.stages ∧
        ((read_scenario f).model).stages = f.stages.map convertLegacyStage) ∧
    (∀ ls : LegacyStage,
      ((convertLegacyStage ls).sgReset = SgResetMode.clampToOne ↔
        ls.sgOption = LegacySgOption.repeatSg)) ∧
    ((read_scenario baselineLegacy).warnings).length = 3 := by
  refine ⟨fun f => ⟨readWarnings_length f.stages 0, rfl⟩, fun ls => ?_, ?_⟩
  · cases h : ls.sgOption with
    | repeatSg => simp [convertLegacyStage, h]
    | explicitSg v => simp [convertLegacyStage, h]
  · decide

theorem findConv_none_iff (tol : ℚ) :
    ∀ (m : Nat) (e : ℚ), findConv tol m e = none ↔
      ∀ n ≤ m, tol < e * (1 / 2 : ℚ) ^ n := by
  intro m
  induction m with
  | zero =>
    intro e
    by_cases h : e ≤ tol
    · simp only [findConv, if_pos h]
      constructor
      · intro hc; exact absurd hc (by simp)
      · intro hall
        have h0 := hall 0 (le_refl 0)
        simp only [pow_zero, mul_one] at h0
        exact absurd h (not_le.mpr h0)
    · simp only [findConv, if_neg h]
      constructor
      · intro _ n hn
        obtain rfl := Nat.le_zero.mp hn
        simpa using not_le.mp h
      · intro _; trivial
  | succ m ih =>
    intro e
    by_cases h : e ≤ tol
    · simp only [findConv, if_pos h]
      constructor
      · intro hc; exact absurd hc (by simp)
      · intro hall
        have h0 := hall 0 (Nat.zero_le _)
        simp only [pow_zero, mul_one] at h0
        exact absurd h (not_le.mpr h0)
    · simp only [findConv, if_neg h]
      cases hf : findConv tol m (e / 2) with
      | some p =>
        obtain ⟨k, e'⟩ := p
        simp only [hf]
        constructor
        · intro hc; exact absurd hc (by simp)
        · intro hall
          have hne : findConv tol m (e / 2) ≠ none := by simp [hf]
          have hno : ¬∀ n ≤ m, tol < (e / 2) * (1 / 2 : ℚ) ^ n :=
            fun hh => hne ((ih (e / 2)).mpr hh)
          refine absurd (fun n hn => ?_) hno
          have h2 : (e / 2) * (1 / 2 : ℚ) ^ n = e * (1 / 2 : ℚ) ^ (n + 1) := by
            rw [pow_succ]; ring
          rw [h2]
          exact hall (n + 1) (Nat.succ_le_succ hn)
      | none =>
        simp only [hf]
        constructor
        · intro _ n hn
          cases n with
          | zero => simpa using not_le.mp h
          | succ j =>
            have hj : j ≤ m := Nat.succ_le_succ_iff.mp hn
            have hlt := (ih (e / 2)).mp hf j hj
            have h2 : (e / 2) * (1 / 2 : ℚ) ^ j = e * (1 / 2 : ℚ) ^ (j + 1) := by
              rw [pow_succ]; ring
            rwa [h2] at hlt
        · intro _; trivial

theorem solveStep_isDiverged_iff (cfg : Config) (stage : StageDescriptor) (s : SimState) :
    (solveStep cfg stage s).isDiverged = true ↔
      findConv cfg.tol cfg.maxIter (initialErr stage) = none := by
  cases hf : findConv cfg.tol cfg.maxIter (initialErr stage) with
  | some p =>
    obtain ⟨k, e⟩ := p
    simp [solveStep, hf, SolveOutcome.isDiverged]
  | none => simp [solveStep, hf, SolveOutcome.isDiverged]

theorem stageLoop_degraded_all (cfg : Config) (i : Nat) (stage : StageDescriptor) (f : Nat)
    (h1 : divergesB cfg stage = true) (h2 : cfg.tolerateDivergence = true) :
    ∀ (r k : Nat) (s : SimState) (t : ℚ),
      (stageLoop cfg i stage f r k s t).degraded = List.range' k r := by
  have hnone : findConv cfg.tol cfg.maxIter (initialErr stage) = none := by
    simp only [divergesB, Option.isNone_iff_eq_none] at h1
    exact h1
  intro r
  induction r with
  | zero => intro k s t; simp [stageLoop, List.range']
  | succ r ih =>
    intro k s t
    simp only [stageLoop, solveStep, hnone, h2, if_true]
    simp [List.range', ih]

theorem stageLoop_abort (cfg : Config) (i : Nat) (stage : StageDescriptor) (f : Nat)
    (h1 : divergesB cfg stage = true) (h2 : cfg.tolerateDivergence = false) :
    ∀ (r k : Nat) (s : SimState) (t : ℚ), 0 < r →
      (stageLoop cfg i stage f r k s t).failure = some (.DivergenceError i k) := by
  have hnone : findConv cfg.tol cfg.maxIter (initialErr stage) = none := by
    simp only [divergesB, Option.isNone_iff_eq_none] at h1
    exact h1
  intro r k s t hr
  cases r with
  | zero => exact absurd hr (lt_irrefl 0)
  | succ r => simp [stageLoop, solveStep, hnone, h2]

/-- Claim C7: the per-step solve is diverged exactly when the bounded
iterative refinement fails to bring the convergence-error metric below the
tolerance within the bounded number of attempts; when divergence is
tolerated by configuration the run continues with the best available state
and every degraded step is recorded in the diagnostics, and when it is not
tolerated the step aborts the stage with a `DivergenceError` carrying the
stage and step indices — never silently swallowed. -/
theorem claim_C7_divergence (cfg : Config) (i : Nat) (stage : StageDescriptor)
    (f r k : Nat) (s : SimState) (t : ℚ) :
    ((solveStep cfg stage s).isDiverged = true ↔
      ∀ n ≤ cfg.maxIter, cfg.tol < initialErr stage * (1 / 2 : ℚ) ^ n) ∧
    (divergesB cfg stage = true → cfg.tolerateDivergence = true →
      (stageLoop cfg i stage f r k s t).degraded = List.range' k r) ∧
    (divergesB cfg stage = true → cfg.tolerateDivergence = false → 0 < r →
      (stageLoop cfg i stage f r k s t).failure = some (.DivergenceError i k)) :=
  ⟨(solveStep_isDiverged_iff cfg stage s).trans
      (findConv_none_iff cfg.tol cfg.maxIter (initialErr stage)),
   fun h1 h2 => stageLoop_degraded_all cfg i stage f h1 h2 r k s t,
   fun h1 h2 hr => stageLoop_abort cfg i stage f h1 h2 r k s t hr⟩

theorem claim_C7_witness :
    (stageLoop cfgDivW 0 stW 1 2 0 sInitW 0).degraded = List.range' 0 2 :=
  (claim_C7_divergence cfgDivW 0 stW 1 2 0 sInitW 0).2.1
    (by norm_num [divergesB, findConv, initialErr, cfgDivW, stW]) rfl

theorem cellGrowth_nonneg (dt g : ℚ) : 0 ≤ cellGrowth dt g := by
  unfold cellGrowth
  exact le_max_left _ _

theorem radiusLEb_trans : ∀ a b c : List ℚ, radiusLEb a b = true →
    radiusLEb b c = true → radiusLEb a c = true := by
  intro a
  induction a with
  | nil =>
    intro b c hab hbc
    cases b with
    | nil => cases c with
      | nil => rfl
      | cons z zs => simp [radiusLEb] at hbc
    | cons y ys => simp [radiusLEb] at hab
  | cons x xs ih =>
    intro b c hab hbc
    cases b with
    | nil => simp [radiusLEb] at hab
    | cons y ys =>
      cases c with
      | nil => simp [radiusLEb] at hbc
      | cons z zs =>
        simp only [radiusLEb, Bool.and_eq_true, decide_eq_true_eq] at hab hbc ⊢
        exact ⟨le_trans hab.1 hbc.1, ih ys zs hab.2 hbc.2⟩

theorem radiusLEb_grow : ∀ (rad sgl : List ℚ) (dt : ℚ), rad.length = sgl.length →
    radiusLEb rad (List.zipWith (· + ·) rad (sgl.map (cellGrowth dt))) = true := by
  intro rad
  induction rad with
  | nil => intro sgl dt _; rfl
  | cons x xs ih =>
    intro sgl dt h
    cases sgl with
    | nil => simp at h
    | cons g gs =>
      simp only [List.map_cons, List.zipWith_cons_cons, radiusLEb, Bool.and_eq_true,
        decide_eq_true_eq]
      exact ⟨le_add_of_nonneg_right (cellGrowth_nonneg dt g), ih gs dt (by simpa using h)⟩

theorem radChainB_cons_of_le (a b : List ℚ) (l : List (List ℚ))
    (hab : radiusLEb a b = true) (hbl : radChainB (b :: l) = true) :
    radChainB (a :: l) = true := by
  cases l with
  | nil => rfl
  | cons c rest =>
    simp only [radChainB, Bool.and_eq_true] at hbl ⊢
    exact ⟨radiusLEb_trans a b c hab hbl.1, hbl.2⟩

theorem radChainB_tail (a : List ℚ) (l : List (List ℚ))
    (h : radChainB (a :: l) = true) : radChainB l = true := by
  cases l with
  | nil => rfl
  | cons b rest =>
    simp only [radChainB, Bool.and_eq_true] at h
    exact h.2

theorem advance_radius_dissolve (stage : StageDescriptor) (s : SimState)
    (h : stage.dissolutionOnly = true) :
    (advanceState stage s).radius =
      List.zipWith (· + ·) s.radius (s.sg.map (cellGrowth stage.timestep)) := by
  simp [advanceState, h]

theorem advance_sg_length (stage : StageDescriptor) (s : SimState) :
    (advanceState stage s).sg.length = s.sg.length := by
  simp [advanceState]

theorem advance_wf (stage : StageDescriptor) (s : SimState)
    (hd : stage.dissolutionOnly = true) (hwf : s.wf = true) :
    (advanceState stage s).wf = true := by
  simp only [SimState.wf, beq_iff_eq] at hwf ⊢
  rw [advance_radius_dissolve stage s hd, advance_sg_length]
  simp [List.length_zipWith, hwf]

theorem setErr_wf (s : SimState) (e : ℚ) : (setErr s e).wf = s.wf := rfl

theorem setErr_radius (s : SimState) (e : ℚ) : (setErr s e).radius = s.radius := rfl

theorem stageEntry_wf (stage : StageDescriptor) (s : SimState) (hwf : s.wf = true) :
    (applyStageEntry stage s).wf = true := by
  cases hsr : stage.sgReset with
  | clampToOne =>
    simp only [applyStageEntry, hsr, SimState.wf, beq_iff_eq, List.length_map] at hwf ⊢
    exact hwf
  | inherit => simpa [applyStageEntry, hsr] using hwf

theorem stageLoop_chain (cfg : Config) (i : Nat) (stage : StageDescriptor) (f : Nat)
    (hd : stage.dissolutionOnly = true) :
    ∀ (r k : Nat) (s : SimState) (t : ℚ), s.wf = true →
      radChainB (s.radius :: snapRadii ((stageLoop cfg i stage f r k s t).snaps)) = true := by
  intro r
  induction r with
  | zero => intro k s t _; rfl
  | succ r ih =>
    intro k s t hwf
    have hgrow : ∀ e : ℚ,
        radiusLEb s.radius (setErr (advanceState stage s) e).radius = true := by
      intro e
      rw [setErr_radius, advance_radius_dissolve stage s hd]
      refine radiusLEb_grow s.radius s.sg stage.timestep ?_
      simpa [SimState.wf, beq_iff_eq] using hwf
    have hwf' : ∀ e : ℚ, (setErr (advanceState stage s) e).wf = true := by
      intro e
      rw [setErr_wf]
      exact advance_wf stage s hd hwf
    cases hf : findConv cfg.tol cfg.maxIter (initialErr stage) with
    | some p =>
      obtain ⟨kk, e⟩ := p
      simp only [stageLoop, solveStep, hf]
      by_cases hc : ((k + 1) % f = 0 ∨ r = 0)
      · simp only [if_pos hc, List.singleton_append, snapRadii, List.map_cons]
        have hrec := ih (k + 1) (setErr (advanceState stage s) e) (t + stage.timestep) (hwf' e)
        simp only [snapRadii] at hrec
        simp only [radChainB, Bool.and_eq_true]
        exact ⟨hgrow e, hrec⟩
      · simp only [if_neg hc, List.nil_append]
        have hrec := ih (k + 1) (setErr (advanceState stage s) e) (t + stage.timestep) (hwf' e)
        simp only [snapRadii] at hrec ⊢
        exact radChainB_cons_of_le _ _ _ (hgrow e) hrec
    | none =>
      cases htd : cfg.tolerateDivergence with
      | true =>
        simp only [stageLoop, solveStep, hf, htd, if_true]
        by_cases hc : ((k + 1) % f = 0 ∨ r = 0)
        · simp only [if_pos hc, List.singleton_append, snapRadii, List.map_cons]
          have hrec := ih (k + 1)
            (setErr (advanceState stage s) (initialErr stage * (1 / 2) ^ cfg.maxIter))
            (t + stage.timestep) (hwf' _)
          simp only [snapRadii] at hrec
          simp only [radChainB, Bool.and_eq_true]
          exact ⟨hgrow _, hrec⟩
        · simp only [if_neg hc, List.nil_append]
          have hrec := ih (k + 1)
            (setErr (advanceState stage s) (initialErr stage * (1 / 2) ^ cfg.maxIter))
            (t + stage.timestep) (hwf' _)
          simp only [snapRadii] at hrec ⊢
          exact radChainB_cons_of_le _ _ _ (hgrow _) hrec
      | false =>
        simp only [stageLoop, solveStep, hf, htd, if_false]
        rfl

/-- Claim C8: in a stage that performs dissolution only (no insoluble-floor
adjustment active), the per-cell radius recorded in the stage's saved
snapshots is non-decreasing across consecutive saved steps, for every depth
cell — dissolution only enlarges the cavern radius. -/
theorem claim_C8_radius_monotone (cfg : Config) (i : Nat) (stage : StageDescriptor)
    (s : SimState) (t : ℚ) (hd : stage.dissolutionOnly = true) (hwf : s.wf = true) :
    radChainB (snapRadii ((runStage cfg i stage s t).snaps)) = true := by
  by_cases hv : validStage stage = true
  · rw [runStage, if_pos hv]
    exact radChainB_tail _ _
      (stageLoop_chain cfg i stage (max 1 stage.saveEvery) hd (numSteps stage) 0
        (applyStageEntry stage s) t (stageEntry_wf stage s hwf))
  · rw [runStage, if_neg hv]
    rfl

theorem claim_C8_witness :
    radChainB (snapRadii ((runStage cfgOkW 0 stW sInitW 0).snaps)) = true :=
  claim_C8_radius_monotone cfgOkW 0 stW sInitW 0 rfl rfl

theorem stageLoop_snaps_length (cfg : Config) (i : Nat) (stage : StageDescriptor) (f : Nat) :
    ∀ (r k : Nat) (s : SimState) (t : ℚ),
      (stageLoop cfg i stage f r k s t).failure = none →
      (stageLoop cfg i stage f r k s t).snaps.length = saveCount f r k := by
  intro r
  induction r with
  | zero => intro k s t _; rfl
  | succ r ih =>
    intro k s t hfail
    cases hf : findConv cfg.tol cfg.maxIter (initialErr stage) with
    | some p =>
      obtain ⟨kk, e⟩ := p
      simp only [stageLoop, solveStep, hf] at hfail ⊢
      rw [List.length_append, ih (k + 1) _ _ hfail]
      by_cases hc : ((k + 1) % f = 0 ∨ r = 0) <;> simp [hc, saveCount]
    | none =>
      cases htd : cfg.tolerateDivergence with
      | true =>
        simp only [stageLoop, solveStep, hf, htd, if_true] at hfail ⊢
        rw [List.length_append, ih (k + 1) _ _ hfail]
        by_cases hc : ((k + 1) % f = 0 ∨ r = 0) <;> simp [hc, saveCount]
      | false =>
        simp only [stageLoop, solveStep, hf, htd, if_false] at hfail
        exact absurd hfail (by simp)

theorem runStages_snaps_length (cfg : Config) :
    ∀ (stages : List StageDescriptor) (i : Nat) (s : SimState) (t : ℚ),
      (runStages cfg i stages s t).failure = none →
      (runStages cfg i stages s t).snaps.length = totalSaveCount stages := by
  intro stages
  induction stages with
  | nil => intro i s t _; rfl
  | cons stage rest ih =>
    intro i s t hfail
    cases ho : (runStage cfg i stage s t).failure with
    | some e =>
      simp only [runStages, ho] at hfail
      exact absurd hfail (by simp)
    | none =>
      simp only [runStages, ho] at hfail ⊢
      have hv : validStage stage = true := by
        by_contra hnv
        rw [runStage, if_neg hnv] at ho
        exact absurd ho (by simp)
      have hlen : (runStage cfg i stage s t).snaps.length = stageSaveCount stage := by
        rw [runStage, if_pos hv] at ho ⊢
        exact stageLoop_snaps_length cfg i stage _ _ _ _ _ ho
      rw [List.length_append, hlen, ih _ _ _ hfail]
      simp [totalSaveCount]

/-- Claim C2: for a run that completes, the results hold snapshots in
stage-execution order, the first saved entry being the pre-stage-one
snapshot of the initial state at elapsed time zero, and the total number of
saved entries is exactly one more than the number of save points reached
during stage execution; per-cell grids are read from a snapshot by saved
step and depth cell. -/
theorem claim_C2_results_indexing (cfg : Config) (sc : Scenario) (g : GeometryGrid)
    (out : RunOutput) (hg : GeometryGrid.build sc.geometry = .ok g)
    (hrun : runScenario cfg sc = .ok out) (hok : out.failure = none) :
    out.results.snaps.head? = some (0, initState g sc.stages) ∧
    out.results.snaps.length = 1 + totalSaveCount sc.stages := by
  simp only [runScenario, hg] at hrun
  injection hrun with hout
  subst hout
  refine ⟨rfl, ?_⟩
  have hfail : (runStages cfg 0 sc.stages (initState g sc.stages) 0).failure = none := hok
  simp only [List.length_cons, runStages_snaps_length cfg sc.stages 0 _ 0 hfail]
  exact Nat.add_comm _ 1

theorem claim_C2_witness :
    outW.results.snaps.head? = some (0, initState gW scenW.stages) ∧
    outW.results.snaps.length = 1 + totalSaveCount scenW.stages :=
  claim_C2_results_indexing cfgOkW scenW gW outW rfl rfl
    (by norm_num [outW, runScenario, scenW, geomW, GeometryGrid.build, geomValidB, strictIncB,
      runStages, runStage, stageLoop, solveStep, findConv, initialErr, validStage, numSteps,
      ratCeilNat, cfgOkW, stW, applyStageEntry])

/-- Claim C9: a scenario consisting of a single stage with zero duration
produces a results object containing exactly the initial time-zero snapshot
and no further saved steps. -/
theorem claim_C9_zero_duration (cfg : Config) (geom : List (ℚ × ℚ))
    (stage : StageDescriptor) (g : GeometryGrid)
    (hg : GeometryGrid.build geom = .ok g) (hv : validStage stage = true)
    (hdur : stage.target = .byDuration 0) :
    (runScenario cfg ⟨geom, [stage]⟩).map (fun o => o.results.snaps) =
      .ok [(0, initState g [stage])] := by
  have hns : numSteps stage = 0 := by
    simp [numSteps, hdur, ratCeilNat]
  simp [runScenario, hg, runStages, runStage, hv, hns, stageLoop, Except.map]

theorem claim_C9_witness :
    (runScenario cfgOkW ⟨geomW, [stZeroW]⟩).map (fun o => o.results.snaps) =
      .ok [(0, initState gW [stZeroW])] :=
  claim_C9_zero_duration cfgOkW geomW stZeroW gW rfl rfl rfl

end Sansmic
